import Mathlib

/-!
# Token-authenticated file server: token store, path sanitizer, transfer handlers

A shallow embedding of `main.go`.

Modelling conventions
* `time.Time` is an instant on an integer time line counted in nanoseconds
  (`Time := Int`); `time.Now()` is an explicit argument `now` of every operation
  that reads the clock.  `t.After(u)` is `u < t`, `t.Add(d)` is `t + d`.
* The Go map `map[string]time.Time` is a finite map with unique keys
  (`AList`).  A `range` loop over the map visits the entries in an unspecified
  order; here it visits them in the order of the underlying entry list, and the
  theorems hold for every such list, hence for every visiting order.
* `sync.RWMutex` has no effect on a sequential run (lock at entry, deferred
  unlock at exit), so the sequential operations carry only the map.  The lock
  discipline itself is modelled separately as an interleaving semantics.
-/

namespace FileServer

/-! ## Time -/

/-- An instant (`time.Time`), in nanoseconds on an integer time line. -/
abbrev Time := Int

/-- A `time.Duration`, in nanoseconds. -/
abbrev Duration := Int

namespace time

/-- The constant `time.Minute`, in nanoseconds. -/
def Minute : Duration := 60 * 1000000000

/-- The constant `time.Hour`, in nanoseconds. -/
def Hour : Duration := 60 * Minute

/-- The method `t.After(u)`: reports whether the instant `t` is after `u`. -/
def After (t u : Time) : Bool := decide (u < t)

/-- The method `t.Add(d)`. -/
def Add (t : Time) (d : Duration) : Time := t + d

end time

/-! ## Token store -/

/-- The Go type `map[string]time.Time`. -/
abbrev TokenMap := AList (fun _ : String => Time)

/-- The struct `TokenManager`: the token-to-expiry map (the mutex guarding it is
modelled in the interleaving semantics further down). -/
structure TokenManager where
  tokens : TokenMap

/-- The global `tokenManager` as initialised: an empty map. -/
def TokenManager.empty : TokenManager := ⟨∅⟩

/-- `tm.tokens[token] = time.Now().Add(1 * time.Hour)`. -/
def TokenManager.AddToken (tm : TokenManager) (token : String) (now : Time) : TokenManager :=
  ⟨tm.tokens.insert token (time.Add now (1 * time.Hour))⟩

/-- The method `ValidateToken`: the returned boolean and the store afterwards. -/
def TokenManager.ValidateToken (tm : TokenManager) (token : String) (now : Time) :
    Bool × TokenManager :=
  match tm.tokens.lookup token with
  | none => (false, tm)
  | some expiry =>
    if time.After now expiry then
      (false, ⟨tm.tokens.erase token⟩)
    else
      (true, tm)

/-- One iteration of the loop body of `cleanupExpiredTokens`. -/
def cleanupStep (now : Time) (m : TokenMap) (e : Sigma (fun _ : String => Time)) : TokenMap :=
  if time.After now e.2 then m.erase e.1 else m

/-- The method `cleanupExpiredTokens`: `now := time.Now()`, then the `range` loop over
the entries of the map, deleting from the map while ranging. -/
def TokenManager.cleanupExpiredTokens (tm : TokenManager) (now : Time) : TokenManager :=
  ⟨tm.tokens.entries.foldl (cleanupStep now) tm.tokens⟩

/-- A store holding one token, `"tok"`, that expires at the instant `100`. -/
def storeTok100 : TokenManager := ⟨(∅ : TokenMap).insert "tok" 100⟩

/-- The period of the ticker in `StartCleanupRoutine`. -/
def cleanupInterval : Duration := 10 * time.Minute

/-- The background routine of `StartCleanupRoutine`, run over the ticks that arrive:
every tick at instant `t` runs one sweep with `time.Now() = t`. -/
def TokenManager.runCleanupRoutine (tm : TokenManager) (ticks : List Time) : TokenManager :=
  ticks.foldl (fun s t => s.cleanupExpiredTokens t) tm

/-! ## Token generation (`crypto/rand`, `encoding/hex`)

A byte is a natural number read modulo `256`. -/

/-- A byte slice (`[]byte`). -/
abbrev Bytes := List Nat

namespace hex

/-- The constant `hextable` of `encoding/hex`. -/
def hextable : List Char := "0123456789abcdef".data

/-- The lookup `hextable[i]`. -/
def hexDigit (i : Nat) : Char := hextable.getD i '0'

/-- The loop of `hex.Encode`: for every byte `v` of `src`, the characters
`hextable[v>>4]` and `hextable[v&0x0f]`. -/
def encodeChars : Bytes → List Char
  | [] => []
  | v :: vs => hexDigit (v % 256 / 16) :: hexDigit (v % 16) :: encodeChars vs

/-- The function `hex.EncodeToString`. -/
def EncodeToString (src : Bytes) : String := ⟨encodeChars src⟩

/-- The value of a hexadecimal digit (lower case), if it is one. -/
def digitValue (c : Char) : Option Nat :=
  match hextable.indexOf c with
  | 16 => none
  | i => some i

/-- Reading a hexadecimal rendering back: two digits for every byte. -/
def decodeChars : List Char → Option Bytes
  | [] => some []
  | [_] => none
  | c1 :: c2 :: cs =>
    match digitValue c1, digitValue c2, decodeChars cs with
    | some hi, some lo, some rest => some ((16 * hi + lo) :: rest)
    | _, _, _ => none

end hex

/-- The outcome of `rand.Read(bytes)` on the 16-byte buffer: the buffer as filled,
or the error of the randomness source. -/
inductive RandRead where
  | filled (bytes : Bytes)
  | failed (err : String)

/-- The function `generateToken`: the returned string and the returned error
(`none` is Go's `nil`). -/
def generateToken (rnd : RandRead) : String × Option String :=
  match rnd with
  | .failed err => ("", some err)
  | .filled bytes => (hex.EncodeToString bytes, none)

/-! ## Paths (`path/filepath` on a slash-separated system, `strings`) -/

namespace filepath

/-- The constant `filepath.Separator`. -/
def Separator : Char := '/'

/-- The function `os.IsPathSeparator`. -/
def IsPathSeparator (c : Char) : Bool := c == Separator

/-- The function `filepath.Base` on the characters of the path: the empty path gives
`"."`, trailing separators are stripped, the part after the last separator is kept,
and a path of separators only gives `"/"`. -/
def baseChars (path : List Char) : List Char :=
  if path = [] then ['.']
  else
    let stripped := path.rdropWhile IsPathSeparator
    let last := stripped.rtakeWhile (fun c => !IsPathSeparator c)
    if last = [] then [Separator] else last

/-- The function `filepath.Base`. -/
def Base (path : String) : String := ⟨baseChars path.data⟩

/-- The backtracking of `Clean` at a `..` element, on the write index `w`:
`for out.w > dotdot && !IsPathSeparator(out.index(out.w)) { out.w-- }`. -/
def backtrack (out : List Char) (dotdot : Nat) : Nat → Nat
  | 0 => 0
  | w + 1 =>
    if dotdot < w + 1 ∧ !IsPathSeparator (out.getD (w + 1) Separator) then
      backtrack out dotdot w
    else w + 1

/-- The main loop of `filepath.Clean`: `rest` is the unread part of the path, `out`
the buffer written so far, `dotdot` the index where `..` must stop.  Every round
reads at least one character, so the length of the path is fuel enough. -/
def cleanLoop (rooted : Bool) : Nat → List Char → List Char → Nat → List Char
  | 0, _, out, _ => out
  | _ + 1, [], out, _ => out
  | fuel + 1, c :: cs, out, dotdot =>
    if IsPathSeparator c then
      -- empty path element
      cleanLoop rooted fuel cs out dotdot
    else if c = '.' ∧ (cs = [] ∨ cs.head?.any IsPathSeparator) then
      -- . element
      cleanLoop rooted fuel cs out dotdot
    else if c = '.' ∧ cs.head? = some '.' ∧
        (cs.tail = [] ∨ cs.tail.head?.any IsPathSeparator) then
      -- .. element: remove to last separator
      if dotdot < out.length then
        cleanLoop rooted fuel cs.tail (out.take (backtrack out dotdot (out.length - 1))) dotdot
      else if !rooted then
        let out2 := (if 0 < out.length then out ++ [Separator] else out) ++ ['.', '.']
        cleanLoop rooted fuel cs.tail out2 out2.length
      else
        cleanLoop rooted fuel cs.tail out dotdot
    else
      -- real path element: add slash if needed, copy element
      let out2 :=
        if (rooted ∧ out.length ≠ 1) ∨ (¬ rooted ∧ out.length ≠ 0) then out ++ [Separator]
        else out
      cleanLoop rooted fuel (cs.dropWhile (fun x => !IsPathSeparator x))
        (out2 ++ c :: cs.takeWhile (fun x => !IsPathSeparator x)) dotdot

/-- The function `filepath.Clean` on the characters of the path. -/
def cleanChars (path : List Char) : List Char :=
  if path = [] then ['.']
  else
    let rooted : Bool := path.head?.any IsPathSeparator
    let out :=
      if rooted then cleanLoop true path.length path.tail [Separator] 1
      else cleanLoop false path.length path [] 0
    if out = [] then ['.'] else out

/-- The function `filepath.Clean`. -/
def Clean (path : String) : String := ⟨cleanChars path.data⟩

/-- The call `filepath.Join(dir, name)` with two elements: the elements from the first
non-empty one on, joined by the separator and cleaned; `""` when both are empty. -/
def Join (dir name : String) : String :=
  if dir ≠ "" then Clean (dir ++ "/" ++ name)
  else if name ≠ "" then Clean name
  else ""

end filepath

namespace strings

/-- The loop of `strings.Split` for a one-character separator: `cur` is the piece
being read. -/
def splitChars (sep : Char) : List Char → List Char → List (List Char)
  | [], cur => [cur]
  | c :: cs, cur =>
    if c = sep then cur :: splitChars sep cs [] else splitChars sep cs (cur ++ [c])

/-- The call `strings.Split(s, sep)` for a separator of one character. -/
def Split (s : String) (sep : Char) : List String :=
  (splitChars sep s.data []).map String.mk

end strings

/-! ## Filesystem (`os`)

The filesystem is a map from cleaned path to node.  A path is resolved the way the
system walks it: every ancestor must be a directory, no name may be longer than the
system allows, and the operations fail with the error the walk meets first.
Failures of the device or of permissions are not modelled. -/

/-- What a path names: a regular file with its content, or a directory. -/
inductive Node where
  | file (content : Bytes)
  | dir
  deriving DecidableEq

/-- The errors of the system calls that the model produces. -/
inductive Errno where
  /-- No such file or directory: the only error `os.IsNotExist` accepts. -/
  | ENOENT
  /-- An ancestor of the path is not a directory. -/
  | ENOTDIR
  /-- The path names a directory where a file is needed. -/
  | EISDIR
  /-- A name or the whole path is too long. -/
  | ENAMETOOLONG
  deriving DecidableEq

/-- The state of the filesystem. -/
structure FileSystem where
  /-- The node at each cleaned path. -/
  nodes : String → Option Node
  /-- The size `Stat` reports for a directory (it depends on the system). -/
  dirSize : Nat

namespace FileSystem

/-- A filesystem without any file or directory. -/
def blank : FileSystem := ⟨fun _ => none, 4096⟩

/-- The node stored for a path; the empty path names nothing. -/
def resolve (fs : FileSystem) (path : String) : Option Node :=
  if path = "" then none else fs.nodes (filepath.Clean path)

/-- Whether the path names a regular file. -/
def isFile (fs : FileSystem) (path : String) : Bool :=
  match fs.resolve path with
  | some (Node.file _) => true
  | _ => false

/-- The filesystem with the node at one cleaned path replaced. -/
def put (fs : FileSystem) (key : String) (n : Node) : FileSystem :=
  { fs with nodes := fun p => if p = key then some n else fs.nodes p }

end FileSystem

namespace os

/-- The longest name of one path element, in bytes (`NAME_MAX`). -/
def NameMax : Nat := 255

/-- The length in bytes from which on a whole path is too long (`PATH_MAX`). -/
def PathMax : Nat := 4096

/-- The result of resolving a path: the node it names, or the error. -/
inductive Lookup where
  | found (node : Node)
  | failed (err : Errno)
  deriving DecidableEq

/-- The paths of a cleaned path and of its ancestors, outermost first. -/
def ancestors : List Char → List Char → List (List Char)
  | pre, [] => [pre]
  | pre, c :: cs =>
    if c = filepath.Separator then
      (if pre = [] then [filepath.Separator] else pre) :: ancestors (pre ++ [c]) cs
    else ancestors (pre ++ [c]) cs

/-- The cleaned path with its ancestors, outermost first. -/
def chain (path : String) : List String :=
  (ancestors [] (filepath.Clean path).data).map String.mk

/-- The ancestors of the cleaned path, outermost first, without the path itself. -/
def properAncestors (path : String) : List String :=
  (chain path).filter (fun p => p ≠ filepath.Clean path)

/-- Whether the last element of the path is longer than a name may be. -/
def nameTooLong (p : String) : Bool := decide (NameMax < (filepath.Base p).utf8ByteSize)

/-- The walk through the ancestors of a path: the first error met, `none` when every
ancestor is a directory. -/
def walkDirs (fs : FileSystem) : List String → Option Errno
  | [] => none
  | p :: ps =>
    if nameTooLong p then some Errno.ENAMETOOLONG
    else
      match fs.nodes p with
      | none => some Errno.ENOENT
      | some (Node.file _) => some Errno.ENOTDIR
      | some Node.dir => walkDirs fs ps

/-- The resolution of a path by the system. -/
def lookup (fs : FileSystem) (path : String) : Lookup :=
  if path = "" then Lookup.failed Errno.ENOENT
  else if PathMax ≤ path.utf8ByteSize then Lookup.failed Errno.ENAMETOOLONG
  else
    match walkDirs fs (properAncestors path) with
    | some err => Lookup.failed err
    | none =>
      if nameTooLong (filepath.Clean path) then Lookup.failed Errno.ENAMETOOLONG
      else
        match fs.nodes (filepath.Clean path) with
        | none => Lookup.failed Errno.ENOENT
        | some node => Lookup.found node

/-- The call `os.Stat(path)`. -/
def Stat (fs : FileSystem) (path : String) : Lookup := lookup fs path

/-- The test `os.IsNotExist(err)` on the error of a result (`nil` when the path was
found). -/
def IsNotExist : Lookup → Bool
  | Lookup.failed Errno.ENOENT => true
  | _ => false

/-- The loop of `os.MkdirAll` over the path and its ancestors, outermost first: a
missing directory is created, a regular file or a name that is too long stops the
loop with its error. -/
def mkdirChain (fs : FileSystem) : List String → FileSystem × Option Errno
  | [] => (fs, none)
  | p :: ps =>
    if nameTooLong p then (fs, some Errno.ENAMETOOLONG)
    else
      match fs.nodes p with
      | some (Node.file _) => (fs, some Errno.ENOTDIR)
      | some Node.dir => mkdirChain fs ps
      | none => mkdirChain (fs.put p Node.dir) ps

/-- The call `os.MkdirAll(path, perm)`: the filesystem afterwards and the error. -/
def MkdirAll (fs : FileSystem) (path : String) : FileSystem × Option Errno :=
  if path = "" then (fs, some Errno.ENOENT)
  else if PathMax ≤ path.utf8ByteSize then (fs, some Errno.ENAMETOOLONG)
  else mkdirChain fs (chain path)

/-- The call `os.Create(path)`: the file is created or truncated; the call fails
(`none`) when the path does not resolve up to its last element or names a directory. -/
def Create (fs : FileSystem) (path : String) : Option FileSystem :=
  if path = "" ∨ PathMax ≤ path.utf8ByteSize then none
  else
    match walkDirs fs (properAncestors path) with
    | some _ => none
    | none =>
      if nameTooLong (filepath.Clean path) then none
      else
        match fs.nodes (filepath.Clean path) with
        | some Node.dir => none
        | _ => some (fs.put (filepath.Clean path) (Node.file []))

/-- Writing through the handle of a created file (`io.Copy(dst, file)`): the whole
content reaches the file. -/
def writeAll (fs : FileSystem) (path : String) (content : Bytes) : FileSystem :=
  fs.put (filepath.Clean path) (Node.file content)

/-- The call `os.Open(path)`: the node behind the handle, or the error of resolving
the path. -/
def Open (fs : FileSystem) (path : String) : Lookup := lookup fs path

/-- The size `file.Stat()` reports for an open handle. -/
def Size (fs : FileSystem) : Node → Nat
  | Node.file content => content.length
  | Node.dir => fs.dirSize

/-- Reading an open handle to its end (`io.Copy(w, file)`): the content of a regular
file; a directory cannot be read (`none`). -/
def readAll : Node → Option Bytes
  | Node.file content => some content
  | Node.dir => none

end os

/-! ## HTTP (`net/http`) -/

namespace http

/-- The type `http.Header` (and `url.Values`): keys with their value. -/
abbrev Header := List (String × String)

/-- The method `Get`: the value of the key, `""` when there is none. -/
def Header.Get (h : Header) (key : String) : String :=
  match h.find? (fun kv => kv.1 == key) with
  | some kv => kv.2
  | none => ""

/-- Whether the key has a value. -/
def Header.Has (h : Header) (key : String) : Bool := h.any (fun kv => kv.1 == key)

/-- The method `Del`. -/
def Header.Del (h : Header) (key : String) : Header := h.filter (fun kv => kv.1 != key)

/-- The method `Set`. -/
def Header.Set (h : Header) (key value : String) : Header := (key, value) :: Header.Del h key

/-- The multipart body of a request as `ParseMultipartForm` and `FormFile("file")`
see it. -/
inductive Form where
  /-- The body does not parse as a multipart form. -/
  | malformed
  /-- The form parses and has no file under the field `file`. -/
  | noFile
  /-- The form has a file under the field `file`, with its declared name and content. -/
  | file (Filename : String) (content : Bytes)

/-- What the handlers read of a `*http.Request`. -/
structure Request where
  Method : String
  /-- The field `r.URL.Path`. -/
  Path : String
  Header : http.Header
  /-- The value of `r.URL.Query()`. -/
  Query : http.Header
  Form : Form

/-- What a handler has written to its `http.ResponseWriter`. -/
inductive Body where
  | text (s : String)
  | bytes (b : Bytes)
  deriving DecidableEq

/-- The state of the `http.ResponseWriter` when the handler returns: the status
sent (`200` when the handler never calls `WriteHeader`), the headers, the body. -/
structure Response where
  status : Nat
  Header : http.Header
  body : Body

/-- A response writer nothing was written to. -/
def Response.fresh : Response := ⟨200, [], Body.bytes []⟩

def StatusOK : Nat := 200
def StatusBadRequest : Nat := 400
def StatusUnauthorized : Nat := 401
def StatusNotFound : Nat := 404
def StatusMethodNotAllowed : Nat := 405
def StatusInternalServerError : Nat := 500
def MethodGet : String := "GET"
def MethodPost : String := "POST"

/-- The function `http.Error(w, error, code)`. -/
def Error (w : Response) (error : String) (code : Nat) : Response :=
  let h := Header.Del w.Header "Content-Length"
  let h := Header.Set h "Content-Type" "text/plain; charset=utf-8"
  let h := Header.Set h "X-Content-Type-Options" "nosniff"
  ⟨code, h, Body.text (error ++ "\n")⟩

end http

/-! ## Transfer handlers -/

/-- What the handlers share and change: the global `tokenManager` and the filesystem. -/
structure World where
  tokenManager : TokenManager
  fs : FileSystem

/-- A handler run: the response, the state afterwards, and whether the handler called
`r.ParseMultipartForm` (so read the request body). -/
structure Outcome where
  response : http.Response
  world : World
  parsedForm : Bool

/-- The token a request carries: the header `Authorization`, and the query parameter
`token` when the header is empty (the first lines of both handlers after the method
check). -/
def requestToken (r : http.Request) : String :=
  let token := http.Header.Get r.Header "Authorization"
  if token = "" then http.Header.Get r.Query "token" else token

/-- The six headers `downloadHandler` sets before it opens the file. -/
def transferHeaders (h : http.Header) (filename : String) : http.Header :=
  let h := http.Header.Set h "Content-Description" "File Transfer"
  let h := http.Header.Set h "Content-Type" "application/octet-stream"
  let h := http.Header.Set h "Content-Disposition" ("attachment; filename=" ++ filename)
  let h := http.Header.Set h "Expires" "0"
  let h := http.Header.Set h "Cache-Control" "must-revalidate"
  http.Header.Set h "Pragma" "public"

/-- The directory step of `uploadHandler`:
`if _, err := os.Stat(uploadDir); os.IsNotExist(err) { os.MkdirAll(uploadDir, 0755) }`
(the error of `MkdirAll` is dropped). -/
def ensureUploadDir (fs : FileSystem) (uploadDir : String) : FileSystem :=
  if os.IsNotExist (os.Stat fs uploadDir) then (os.MkdirAll fs uploadDir).1 else fs

/-- The function `uploadHandler`, with the global `uploadDir` and the clock reading
`now` as arguments.  Logging is left out. -/
def uploadHandler (uploadDir : String) (now : Time) (s : World) (r : http.Request) : Outcome :=
  let w := http.Response.fresh
  if r.Method ≠ http.MethodPost then
    ⟨http.Error w "Method not allowed" http.StatusMethodNotAllowed, s, false⟩
  else
    let token := requestToken r
    if token = "" then
      ⟨http.Error w "Unauthorized" http.StatusUnauthorized, s, false⟩
    else
      let v := s.tokenManager.ValidateToken token now
      if !v.1 then
        ⟨http.Error w "Unauthorized" http.StatusUnauthorized, ⟨v.2, s.fs⟩, false⟩
      else
        match r.Form with
        | http.Form.malformed =>
          ⟨http.Error w "Unable to parse form" http.StatusBadRequest, ⟨v.2, s.fs⟩, true⟩
        | http.Form.noFile =>
          ⟨http.Error w "Error retrieving file" http.StatusBadRequest, ⟨v.2, s.fs⟩, true⟩
        | http.Form.file declared content =>
          let filename := filepath.Base declared
          let fs1 := ensureUploadDir s.fs uploadDir
          let dst := filepath.Join uploadDir filename
          match os.Create fs1 dst with
          | none =>
            ⟨http.Error w "Unable to create file" http.StatusInternalServerError,
              ⟨v.2, fs1⟩, true⟩
          | some fs2 =>
            ⟨⟨http.StatusOK, w.Header,
                http.Body.text ("File uploaded successfully: " ++ filename ++ "\n")⟩,
              ⟨v.2, os.writeAll fs2 dst content⟩, true⟩

/-- The function `downloadHandler`, with the global `uploadDir` and the clock reading
`now` as arguments.  Logging is left out, and `file.Stat()` on the open handle does not
fail.  When the copy to the response fails before the first byte, the handler returns
with nothing written and the status is the default one. -/
def downloadHandler (uploadDir : String) (now : Time) (s : World) (r : http.Request) :
    Outcome :=
  let w := http.Response.fresh
  if r.Method ≠ http.MethodGet then
    ⟨http.Error w "Method not allowed" http.StatusMethodNotAllowed, s, false⟩
  else
    let token := requestToken r
    if token = "" then
      ⟨http.Error w "Unauthorized" http.StatusUnauthorized, s, false⟩
    else
      let v := s.tokenManager.ValidateToken token now
      if !v.1 then
        ⟨http.Error w "Unauthorized" http.StatusUnauthorized, ⟨v.2, s.fs⟩, false⟩
      else
        let pathParts := strings.Split r.Path '/'
        if pathParts.length < 3 then
          ⟨http.Error w "Invalid path" http.StatusBadRequest, ⟨v.2, s.fs⟩, false⟩
        else
          let filename := filepath.Base (pathParts.getD 2 "")
          let filePath := filepath.Join uploadDir filename
          if os.IsNotExist (os.Stat s.fs filePath) then
            ⟨http.Error w "File not found" http.StatusNotFound, ⟨v.2, s.fs⟩, false⟩
          else
            let h := transferHeaders w.Header filename
            match os.Open s.fs filePath with
            | os.Lookup.failed _ =>
              ⟨http.Error ⟨w.status, h, w.body⟩ "Unable to open file"
                  http.StatusInternalServerError, ⟨v.2, s.fs⟩, false⟩
            | os.Lookup.found file =>
              let h := http.Header.Set h "Content-Length" (toString (os.Size s.fs file))
              match os.readAll file with
              | none => ⟨⟨w.status, h, w.body⟩, ⟨v.2, s.fs⟩, false⟩
              | some content =>
                ⟨⟨http.StatusOK, h, http.Body.bytes content⟩, ⟨v.2, s.fs⟩, false⟩

/-- A state for examples: the token `"T"` issued at the instant `0`, and a filesystem
without any file or directory. -/
def worldT : World := ⟨TokenManager.empty.AddToken "T" 0, FileSystem.blank⟩

/-- A request for examples: `POST /upload?token=T` whose field `file` has the declared
name `name` and the content `content`. -/
def uploadRequest (name : String) (content : Bytes) : http.Request :=
  ⟨"POST", "/upload", [], [("token", "T")], http.Form.file name content⟩

/-- A request for examples: `GET` of the path `path` with the query `token`. -/
def downloadRequest (path token : String) : http.Request :=
  ⟨"GET", path, [], [("token", token)], http.Form.noFile⟩

/-- A request for examples: a POST with the header `Authorization: auth` and the query
`token=query`, whose field `file` holds `hi` under the name `hello.txt`. -/
def uploadRequestWith (auth query : String) : http.Request :=
  ⟨"POST", "/upload", [("Authorization", auth)], [("token", query)],
    http.Form.file "hello.txt" [104, 105]⟩

/-- A request for examples: `GET /download/hello.txt` with the header
`Authorization: auth` and the query `token=query`. -/
def downloadRequestWith (auth query : String) : http.Request :=
  ⟨"GET", "/download/hello.txt", [("Authorization", auth)], [("token", query)],
    http.Form.noFile⟩

/-- A state for examples: the token `"T"` issued at the instant `0`, and a filesystem
in which `uploads` is a regular file. -/
def worldUploadsFile : World :=
  ⟨TokenManager.empty.AddToken "T" 0, FileSystem.blank.put "uploads" (Node.file [1])⟩

/-! ## Lock discipline of `ValidateToken` (`sync.RWMutex`)

An interleaving semantics: every goroutine that runs `ValidateToken` is at one of
the program points below, and one step of one goroutine is one statement of the
method acting on the shared map and mutex. -/

namespace sync

/-- The state of a `sync.RWMutex`: how many goroutines hold the read lock, and whether
one holds the write lock. -/
structure RWMutex where
  readers : Nat
  writer : Bool
  deriving DecidableEq

/-- The zero value: unlocked. -/
def RWMutex.zero : RWMutex := ⟨0, false⟩

/-- The method `RLock`: `none` while the caller has to wait (a writer holds the lock;
that a waiting writer also holds new readers back is not modelled). -/
def RWMutex.RLock (mu : RWMutex) : Option RWMutex :=
  if mu.writer then none else some ⟨mu.readers + 1, mu.writer⟩

/-- The method `RUnlock`. -/
def RWMutex.RUnlock (mu : RWMutex) : RWMutex := ⟨mu.readers - 1, mu.writer⟩

/-- The method `Lock`: `none` while the caller has to wait. -/
def RWMutex.Lock (mu : RWMutex) : Option RWMutex :=
  if mu.writer ∨ mu.readers ≠ 0 then none else some ⟨mu.readers, true⟩

/-- The method `Unlock`. -/
def RWMutex.Unlock (mu : RWMutex) : RWMutex := ⟨mu.readers, false⟩

end sync

/-- The `TokenManager` as goroutines share it: the map and the mutex. -/
structure SharedStore where
  tokens : TokenMap
  mu : sync.RWMutex

/-- Where a goroutine stands inside `ValidateToken`. -/
inductive ValidatePoint where
  /-- Before `tm.mu.RLock()`. -/
  | atRLock
  /-- Holding the read lock, before `expiry, exists := tm.tokens[token]`. -/
  | atLookup
  /-- Before `if time.Now().After(expiry)`. -/
  | atExpiryCheck (expiry : Time)
  /-- Before `delete(tm.tokens, token)`. -/
  | atDelete
  /-- The result is set, the deferred `tm.mu.RUnlock()` is still to run. -/
  | atRUnlock (result : Bool)
  /-- Returned. -/
  | returned (result : Bool)
  deriving DecidableEq

/-- One statement of `ValidateToken(token)` by one goroutine; `none` when the goroutine
cannot move (it waits for the lock, or it has returned). -/
def validateStep (token : String) (now : Time) (s : SharedStore) :
    ValidatePoint → Option (SharedStore × ValidatePoint)
  | .atRLock =>
    match s.mu.RLock with
    | none => none
    | some mu => some (⟨s.tokens, mu⟩, .atLookup)
  | .atLookup =>
    match s.tokens.lookup token with
    | none => some (s, .atRUnlock false)
    | some expiry => some (s, .atExpiryCheck expiry)
  | .atExpiryCheck expiry =>
    if time.After now expiry then some (s, .atDelete) else some (s, .atRUnlock true)
  | .atDelete => some (⟨s.tokens.erase token, s.mu⟩, .atRUnlock false)
  | .atRUnlock result => some (⟨s.tokens, s.mu.RUnlock⟩, .returned result)
  | .returned _ => none

/-- The goroutines of a run, each with its argument, its clock reading and its
program point, and the store they share. -/
structure Goroutines where
  store : SharedStore
  threads : List (String × Time × ValidatePoint)

/-- One step of goroutine `i`. -/
def Goroutines.step (g : Goroutines) (i : Nat) : Option Goroutines :=
  match g.threads.get? i with
  | none => none
  | some (token, now, pt) =>
    match validateStep token now g.store pt with
    | none => none
    | some (store, pt2) => some ⟨store, g.threads.set i (token, now, pt2)⟩

/-- The run of a schedule: the goroutine to move at each step. -/
def Goroutines.run (g : Goroutines) : List Nat → Option Goroutines
  | [] => some g
  | i :: rest =>
    match g.step i with
    | none => none
    | some g2 => g2.run rest

/-- Whether goroutine `i` stands at the `delete` statement. -/
def Goroutines.atDelete (g : Goroutines) (i : Nat) : Bool :=
  match g.threads.get? i with
  | some (_, _, .atDelete) => true
  | _ => false

/-- Two goroutines about to validate the token `"tok"`, which expired at `100`, at the
time `101`, on an unlocked store. -/
def twoValidations : Goroutines :=
  ⟨⟨storeTok100.tokens, sync.RWMutex.zero⟩,
    [("tok", 101, ValidatePoint.atRLock), ("tok", 101, ValidatePoint.atRLock)]⟩

/-! ## Token store: lemmas -/

theorem time.After_iff (t u : Time) : time.After t u = true ↔ u < t := by
  simp [time.After]

theorem time.After_eq_false_iff (t u : Time) : time.After t u = false ↔ t ≤ u := by
  simp [time.After]

theorem lookup_cleanupStep (now : Time) (m : TokenMap) (e : Sigma (fun _ : String => Time))
    (k : String) :
    (cleanupStep now m e).lookup k =
      if e.1 = k ∧ time.After now e.2 = true then none else m.lookup k := by
  unfold cleanupStep
  by_cases hA : time.After now e.2 = true
  · by_cases hk : e.1 = k
    · subst hk
      simp [hA]
    · have hk2 : k ≠ e.1 := fun h => hk h.symm
      simp [hA, hk, AList.lookup_erase_ne hk2]
  · simp [hA]

theorem lookup_cleanup_foldl (now : Time) (k : String)
    (l : List (Sigma (fun _ : String => Time))) (m : TokenMap) :
    (l.foldl (cleanupStep now) m).lookup k =
      if (∃ e ∈ l, e.1 = k ∧ time.After now e.2 = true) then none else m.lookup k := by
  induction l generalizing m with
  | nil => simp
  | cons e l ih =>
    rw [List.foldl_cons, ih, lookup_cleanupStep]
    by_cases h1 : ∃ e2 ∈ l, e2.1 = k ∧ time.After now e2.2 = true
    · have h2 : ∃ e2 ∈ e :: l, e2.1 = k ∧ time.After now e2.2 = true := by
        obtain ⟨e2, hm, hp⟩ := h1
        exact ⟨e2, List.mem_cons_of_mem _ hm, hp⟩
      rw [if_pos h1, if_pos h2]
    · rw [if_neg h1]
      by_cases h3 : e.1 = k ∧ time.After now e.2 = true
      · have h2 : ∃ e2 ∈ e :: l, e2.1 = k ∧ time.After now e2.2 = true :=
          ⟨e, List.mem_cons_self _ _, h3⟩
        rw [if_pos h3, if_pos h2]
      · have h2 : ¬ ∃ e2 ∈ e :: l, e2.1 = k ∧ time.After now e2.2 = true := by
          rintro ⟨e2, hm, hp⟩
          rcases List.mem_cons.1 hm with rfl | hm
          · exact h3 hp
          · exact h1 ⟨e2, hm, hp⟩
        rw [if_neg h3, if_neg h2]

/-- What a sweep leaves under each key: the old entry when it is not yet past. -/
theorem lookup_cleanupExpiredTokens (tm : TokenManager) (now : Time) (k : String) :
    (tm.cleanupExpiredTokens now).tokens.lookup k =
      match tm.tokens.lookup k with
      | none => none
      | some e => if time.After now e = true then none else some e := by
  unfold TokenManager.cleanupExpiredTokens
  simp only
  rw [lookup_cleanup_foldl]
  cases hl : tm.tokens.lookup k with
  | none =>
    simp
  | some e =>
    have hmem : (⟨k, e⟩ : Sigma (fun _ : String => Time)) ∈ tm.tokens.entries :=
      AList.mem_lookup_iff.1 (by rw [hl]; exact rfl)
    by_cases hA : time.After now e = true
    · have : ∃ e2 ∈ tm.tokens.entries, e2.1 = k ∧ time.After now e2.2 = true :=
        ⟨⟨k, e⟩, hmem, rfl, hA⟩
      simp only [if_pos this, if_pos hA]
    · have : ¬ ∃ e2 ∈ tm.tokens.entries, e2.1 = k ∧ time.After now e2.2 = true := by
        rintro ⟨⟨k2, e2⟩, hm, hk, hp⟩
        simp only at hk hp
        subst hk
        have h2 : e2 ∈ tm.tokens.lookup k2 := AList.mem_lookup_iff.2 hm
        rw [hl] at h2
        have : e = e2 := by simpa using h2
        subst this
        exact hA hp
      simp only [if_neg this, if_neg hA]

theorem ValidateToken_fst (tm : TokenManager) (token : String) (now : Time) :
    (tm.ValidateToken token now).1 =
      match tm.tokens.lookup token with
      | none => false
      | some expiry => !time.After now expiry := by
  unfold TokenManager.ValidateToken
  cases tm.tokens.lookup token with
  | none => rfl
  | some expiry =>
    by_cases hA : time.After now expiry = true
    · simp [hA]
    · simp [hA]

theorem ValidateToken_snd (tm : TokenManager) (token : String) (now : Time) :
    (tm.ValidateToken token now).2 =
      match tm.tokens.lookup token with
      | none => tm
      | some expiry => if time.After now expiry = true then ⟨tm.tokens.erase token⟩ else tm := by
  unfold TokenManager.ValidateToken
  cases tm.tokens.lookup token with
  | none => rfl
  | some expiry =>
    by_cases hA : time.After now expiry = true
    · simp [hA]
    · simp [hA]

theorem ValidateToken_true_keeps (tm : TokenManager) (token : String) (now : Time)
    (h : (tm.ValidateToken token now).1 = true) : (tm.ValidateToken token now).2 = tm := by
  rw [ValidateToken_fst] at h
  rw [ValidateToken_snd]
  cases hl : tm.tokens.lookup token with
  | none => rfl
  | some expiry =>
    rw [hl] at h
    have hA : ¬ time.After now expiry = true := by simpa using h
    simp [hA]

/-! ## Token store: the claims -/

/-- C1, as the code has it: `ValidateToken` returns true if and only if the token is
present and the current time is not after its recorded expiry (the expiry instant
itself still validates). -/
theorem ValidateToken_true_iff (tm : TokenManager) (token : String) (now : Time) :
    (tm.ValidateToken token now).1 = true ↔
      ∃ expiry, tm.tokens.lookup token = some expiry ∧ now ≤ expiry := by
  rw [ValidateToken_fst]
  cases tm.tokens.lookup token with
  | none => simp
  | some expiry => simp [time.After]

/-- C1 fails as stated: a token whose expiry equals the current time is present and
`ValidateToken` returns true for it, although its expiry is not strictly after
the current time. -/
theorem ValidateToken_at_expiry_is_true :
    storeTok100.tokens.lookup "tok" = some 100 ∧ ¬ ((100 : Time) < 100) ∧
      (storeTok100.ValidateToken "tok" 100).1 = true := by
  decide

/-- C3, as the code has it: after `cleanupExpiredTokens` at time `now` the store maps a
token to an expiry exactly when the original store did and `now` is not after that
expiry; entries with an expiry before `now` are gone, all others are kept unchanged. -/
theorem cleanupExpiredTokens_lookup_iff (tm : TokenManager) (now : Time) (token : String)
    (expiry : Time) :
    (tm.cleanupExpiredTokens now).tokens.lookup token = some expiry ↔
      tm.tokens.lookup token = some expiry ∧ now ≤ expiry := by
  rw [lookup_cleanupExpiredTokens]
  cases tm.tokens.lookup token with
  | none => simp
  | some e =>
    by_cases hA : time.After now e = true
    · have hlt : e < now := (time.After_iff now e).1 hA
      simp only [if_pos hA]
      constructor
      · intro h
        cases h
      · rintro ⟨h1, h2⟩
        cases h1
        exact absurd h2 (not_le.2 hlt)
    · have hle : now ≤ e := by
        have := (time.After_eq_false_iff now e).1 (by simpa using hA)
        exact this
      simp only [if_neg hA]
      constructor
      · intro h
        cases h
        exact ⟨rfl, hle⟩
      · rintro ⟨h1, _⟩
        exact h1

/-- C3 fails as stated: a token whose expiry equals the sweep time (so is at or before
it) is still in the store after `cleanupExpiredTokens`. -/
theorem cleanupExpiredTokens_keeps_expiry_now :
    storeTok100.tokens.lookup "tok" = some 100 ∧ (100 : Time) ≤ 100 ∧
      (storeTok100.cleanupExpiredTokens 100).tokens.lookup "tok" = some 100 := by
  decide

/-- C4: after `AddToken(token)` at time `t0` the store maps the token to `t0 + 1 hour`,
`ValidateToken(token)` at time `t0` returns true, and `ValidateToken(token)` at any time
later than `t0 + 1 hour` returns false. -/
theorem AddToken_then_ValidateToken (tm : TokenManager) (token : String) (t0 : Time) :
    (tm.AddToken token t0).tokens.lookup token = some (t0 + time.Hour) ∧
      ((tm.AddToken token t0).ValidateToken token t0).1 = true ∧
      ∀ t : Time, t0 + time.Hour < t →
        ((tm.AddToken token t0).ValidateToken token t).1 = false := by
  have hl : (tm.AddToken token t0).tokens.lookup token = some (t0 + time.Hour) := by
    simp [TokenManager.AddToken, time.Add]
  refine ⟨hl, ?_, ?_⟩
  · rw [ValidateToken_fst, hl]
    simp [time.After, time.Hour, time.Minute]
  · intro t ht
    rw [ValidateToken_fst, hl]
    simp [time.After, ht]

/-- C4 at a concrete store, token and issuance time: one hour is `3600000000000`
nanoseconds. -/
theorem AddToken_then_ValidateToken_witness :
    (storeTok100.AddToken "abc" 7).tokens.lookup "abc" = some (7 + time.Hour) ∧
      ((storeTok100.AddToken "abc" 7).ValidateToken "abc" 7).1 = true ∧
      ((storeTok100.AddToken "abc" 7).ValidateToken "abc" 3600000000008).1 = false :=
  ⟨(AddToken_then_ValidateToken storeTok100 "abc" 7).1,
    (AddToken_then_ValidateToken storeTok100 "abc" 7).2.1,
    (AddToken_then_ValidateToken storeTok100 "abc" 7).2.2 3600000000008 (by decide)⟩

/-- C8: when `ValidateToken` returns false for a token that is present, the token is
absent afterwards and every other key maps to what it did; when it returns true, or the
token is absent, the store is exactly as it was; and a token that validates at one time
validates again on the resulting store at any time not after its expiry. -/
theorem ValidateToken_frame (tm : TokenManager) (token : String) (now : Time) :
    (∀ expiry, tm.tokens.lookup token = some expiry →
        (tm.ValidateToken token now).1 = false →
        (tm.ValidateToken token now).2.tokens.lookup token = none ∧
          ∀ other, other ≠ token →
            (tm.ValidateToken token now).2.tokens.lookup other = tm.tokens.lookup other) ∧
      ((tm.ValidateToken token now).1 = true ∨ tm.tokens.lookup token = none →
        (tm.ValidateToken token now).2 = tm) ∧
      (∀ expiry now2, tm.tokens.lookup token = some expiry → now ≤ expiry → now2 ≤ expiry →
        (tm.ValidateToken token now).1 = true ∧
          ((tm.ValidateToken token now).2.ValidateToken token now2).1 = true) := by
  refine ⟨?_, ?_, ?_⟩
  · intro expiry hl hf
    rw [ValidateToken_fst, hl] at hf
    have hA : time.After now expiry = true := by simpa using hf
    rw [ValidateToken_snd, hl]
    simp only [if_pos hA]
    refine ⟨by simp, ?_⟩
    intro other hne
    exact AList.lookup_erase_ne hne
  · rintro (h | h)
    · exact ValidateToken_true_keeps tm token now h
    · rw [ValidateToken_snd, h]
  · intro expiry now2 hl h1 h2
    have hv : (tm.ValidateToken token now).1 = true := by
      rw [ValidateToken_fst, hl]
      simpa [time.After] using h1
    refine ⟨hv, ?_⟩
    rw [ValidateToken_true_keeps tm token now hv, ValidateToken_fst, hl]
    simpa [time.After] using h2

/-- C8 at a concrete store: an expired token is removed and another entry is kept; an
unexpired token validates twice in succession. -/
theorem ValidateToken_frame_witness :
    ((storeTok100.AddToken "abc" 7).ValidateToken "tok" 101).2.tokens.lookup "tok" = none ∧
      ((storeTok100.AddToken "abc" 7).ValidateToken "tok" 101).2.tokens.lookup "abc" =
        (storeTok100.AddToken "abc" 7).tokens.lookup "abc" ∧
      (storeTok100.ValidateToken "tok" 50).2 = storeTok100 ∧
      ((storeTok100.ValidateToken "tok" 50).2.ValidateToken "tok" 60).1 = true :=
  ⟨((ValidateToken_frame (storeTok100.AddToken "abc" 7) "tok" 101).1 100 (by decide)
      (by decide)).1,
    ((ValidateToken_frame (storeTok100.AddToken "abc" 7) "tok" 101).1 100 (by decide)
      (by decide)).2 "abc" (by decide),
    (ValidateToken_frame storeTok100 "tok" 50).2.1 (Or.inl (by decide)),
    ((ValidateToken_frame storeTok100 "tok" 50).2.2 100 60 (by decide) (by decide)
      (by decide)).2⟩

/-! ## Token generation: lemmas -/

theorem hex.hexDigit_mem (i : Nat) (h : i < 16) : hex.hexDigit i ∈ hex.hextable := by
  revert i
  decide

theorem hex.digitValue_hexDigit (i : Nat) (h : i < 16) :
    hex.digitValue (hex.hexDigit i) = some i := by
  revert i
  decide

theorem hex.length_encodeChars (src : Bytes) : (hex.encodeChars src).length = 2 * src.length := by
  induction src with
  | nil => rfl
  | cons v vs ih =>
    simp only [hex.encodeChars, List.length_cons, ih]
    omega

theorem hex.mem_encodeChars (src : Bytes) (c : Char) (h : c ∈ hex.encodeChars src) :
    c ∈ hex.hextable := by
  induction src with
  | nil => simp [hex.encodeChars] at h
  | cons v vs ih =>
    simp only [hex.encodeChars, List.mem_cons] at h
    rcases h with h | h | h
    · rw [h]
      exact hex.hexDigit_mem _ (by omega)
    · rw [h]
      exact hex.hexDigit_mem _ (by omega)
    · exact ih h

theorem hex.decodeChars_encodeChars (src : Bytes) (h : ∀ b ∈ src, b < 256) :
    hex.decodeChars (hex.encodeChars src) = some src := by
  induction src with
  | nil => rfl
  | cons v vs ih =>
    have hv : v < 256 := h v (List.mem_cons_self _ _)
    have hvs : ∀ b ∈ vs, b < 256 := fun b hb => h b (List.mem_cons_of_mem _ hb)
    simp only [hex.encodeChars, hex.decodeChars]
    rw [hex.digitValue_hexDigit _ (by omega), hex.digitValue_hexDigit _ (by omega), ih hvs]
    simp only [Option.some.injEq, List.cons.injEq, and_true]
    omega

/-! ## Token generation: the claim -/

/-- C10: when the randomness source fills the 16-byte buffer, `generateToken` returns no
error and a string of exactly 32 characters, each one of `0123456789abcdef`, that reads
back as those 16 bytes; it returns an error exactly when reading the randomness source
fails, and then the string is empty. -/
theorem generateToken_spec (rnd : RandRead) :
    (∀ bytes, rnd = RandRead.filled bytes → bytes.length = 16 → (∀ b ∈ bytes, b < 256) →
        (generateToken rnd).2 = none ∧ (generateToken rnd).1.length = 32 ∧
          (∀ c ∈ (generateToken rnd).1.data, c ∈ "0123456789abcdef".data) ∧
          hex.decodeChars (generateToken rnd).1.data = some bytes) ∧
      ((generateToken rnd).2 ≠ none ↔ ∃ err, rnd = RandRead.failed err) ∧
      ((generateToken rnd).2 ≠ none → (generateToken rnd).1 = "") := by
  refine ⟨?_, ?_, ?_⟩
  · intro bytes hr hlen hb
    subst hr
    refine ⟨rfl, ?_, ?_, ?_⟩
    · show (hex.encodeChars bytes).length = 32
      rw [hex.length_encodeChars, hlen]
    · intro c hc
      exact hex.mem_encodeChars bytes c hc
    · exact hex.decodeChars_encodeChars bytes hb
  · cases rnd with
    | filled bytes => simp [generateToken]
    | failed err => simp [generateToken]
  · cases rnd with
    | filled bytes => simp [generateToken]
    | failed err => simp [generateToken]

/-- C10 at a concrete buffer of 16 bytes. -/
theorem generateToken_spec_witness :
    (generateToken (RandRead.filled
        [0, 1, 2, 3, 16, 32, 127, 128, 171, 205, 239, 240, 254, 255, 9, 10])).1 =
        "0001020310207f80abcdeff0feff090a" ∧
      (generateToken (RandRead.filled
        [0, 1, 2, 3, 16, 32, 127, 128, 171, 205, 239, 240, 254, 255, 9, 10])).1.length = 32 ∧
      hex.decodeChars (generateToken (RandRead.filled
        [0, 1, 2, 3, 16, 32, 127, 128, 171, 205, 239, 240, 254, 255, 9, 10])).1.data =
        some [0, 1, 2, 3, 16, 32, 127, 128, 171, 205, 239, 240, 254, 255, 9, 10] :=
  ⟨by decide,
    ((generateToken_spec (RandRead.filled
        [0, 1, 2, 3, 16, 32, 127, 128, 171, 205, 239, 240, 254, 255, 9, 10])).1 _ rfl
      (by decide) (by decide)).2.1,
    ((generateToken_spec (RandRead.filled
        [0, 1, 2, 3, 16, 32, 127, 128, 171, 205, 239, 240, 254, 255, 9, 10])).1 _ rfl
      (by decide) (by decide)).2.2.2⟩

/-! ## Path sanitizer: the claim -/

/-- C2 fails on the code: for the names `..` and `a/..` the sanitized name
`filepath.Base` returns is the parent reference `..`, and joined with the upload
directory `uploads` it is `.`, the parent of the upload directory; for the name `/`
the sanitized name is `/`, which contains the path separator. -/
theorem Base_keeps_parent_reference :
    filepath.Base ".." = ".." ∧ filepath.Base "a/.." = ".." ∧
      filepath.Join "uploads" (filepath.Base "..") = "." ∧
      filepath.Join "/srv/uploads" (filepath.Base "a/..") = "/srv" ∧
      filepath.Base "/" = "/" ∧ filepath.Separator ∈ (filepath.Base "/").data := by
  decide

/-! ## Lock discipline: the claim -/

/-- C9 fails on the code: with two goroutines validating the same expired token, the
schedule that moves the first one three statements and then the second one three
statements brings both to the statement `delete(tm.tokens, token)` at the same time,
with the read lock held twice and the write lock not held. -/
theorem ValidateToken_deletes_under_read_lock :
    ∃ g, twoValidations.run [0, 0, 0, 1, 1, 1] = some g ∧
      g.atDelete 0 = true ∧ g.atDelete 1 = true ∧
      g.store.mu.readers = 2 ∧ g.store.mu.writer = false := by
  refine ⟨⟨⟨storeTok100.tokens, ⟨2, false⟩⟩,
    [("tok", 101, ValidatePoint.atDelete), ("tok", 101, ValidatePoint.atDelete)]⟩, ?_, ?_⟩
  · rfl
  · decide

/-- A goroutine that runs `ValidateToken` alone on an unlocked store returns what the
sequential method returns, leaves the map the sequential method leaves, and leaves the
mutex unlocked. -/
theorem validate_alone (tokens : TokenMap) (token : String) (now : Time) :
    ∃ n, Goroutines.run ⟨⟨tokens, sync.RWMutex.zero⟩, [(token, now, ValidatePoint.atRLock)]⟩
        (List.replicate n 0) =
      some ⟨⟨((⟨tokens⟩ : TokenManager).ValidateToken token now).2.tokens, sync.RWMutex.zero⟩,
        [(token, now,
          ValidatePoint.returned ((⟨tokens⟩ : TokenManager).ValidateToken token now).1)]⟩ := by
  cases hl : tokens.lookup token with
  | none =>
    refine ⟨3, ?_⟩
    simp [Goroutines.run, Goroutines.step, validateStep, sync.RWMutex.RLock,
      sync.RWMutex.zero, sync.RWMutex.RUnlock, TokenManager.ValidateToken, hl, List.replicate]
  | some expiry =>
    by_cases hA : time.After now expiry = true
    · refine ⟨5, ?_⟩
      simp [Goroutines.run, Goroutines.step, validateStep, sync.RWMutex.RLock,
        sync.RWMutex.zero, sync.RWMutex.RUnlock, TokenManager.ValidateToken, hl, hA,
        List.replicate]
    · refine ⟨4, ?_⟩
      simp [Goroutines.run, Goroutines.step, validateStep, sync.RWMutex.RLock,
        sync.RWMutex.zero, sync.RWMutex.RUnlock, TokenManager.ValidateToken, hl, hA,
        List.replicate]

/-! ## Transfer handlers: lemmas -/

theorem strings.splitChars_of_not_mem (sep : Char) (l cur : List Char) (h : sep ∉ l) :
    strings.splitChars sep l cur = [cur ++ l] := by
  induction l generalizing cur with
  | nil => simp [strings.splitChars]
  | cons c cs ih =>
    have hc : ¬ c = sep := fun e => h (by rw [e]; exact List.mem_cons_self _ _)
    have hcs : sep ∉ cs := fun m => h (List.mem_cons_of_mem _ m)
    simp only [strings.splitChars, if_neg hc]
    rw [ih _ hcs]
    simp

theorem strings.Split_download (N : String) (h : '/' ∉ N.data) :
    strings.Split ("/download/" ++ N) '/' = ["", "download", N] := by
  have hd : ("/download/" ++ N).data =
      '/' :: 'd' :: 'o' :: 'w' :: 'n' :: 'l' :: 'o' :: 'a' :: 'd' :: '/' :: N.data := by
    rw [String.data_append]
    rfl
  unfold strings.Split
  rw [hd]
  simp only [strings.splitChars]
  rw [strings.splitChars_of_not_mem _ _ _ h]
  simp

theorem uploadHandler_status_401_iff (uploadDir : String) (now : Time) (s : World)
    (r : http.Request) (hm : r.Method = "POST") :
    ((uploadHandler uploadDir now s r).response.status = 401 ↔
        (requestToken r = "" ∨
          (s.tokenManager.ValidateToken (requestToken r) now).1 = false)) ∧
      ((uploadHandler uploadDir now s r).response.status = 401 →
        (uploadHandler uploadDir now s r).parsedForm = false ∧
          (uploadHandler uploadDir now s r).world.fs = s.fs) := by
  have hm2 : ¬ r.Method ≠ http.MethodPost := by simp [hm, http.MethodPost]
  unfold uploadHandler
  simp only [if_neg hm2]
  by_cases ht : requestToken r = ""
  · simp [ht, http.Error, http.StatusUnauthorized]
  · simp only [if_neg ht]
    cases hv : (s.tokenManager.ValidateToken (requestToken r) now).1 with
    | false => simp [ht, http.Error, http.StatusUnauthorized]
    | true =>
      simp only [Bool.not_true, Bool.false_eq_true, if_false]
      cases r.Form with
      | malformed => simp [ht, http.Error, http.StatusBadRequest]
      | noFile => simp [ht, http.Error, http.StatusBadRequest]
      | file declared content =>
        simp only
        split <;> simp [ht, http.Error, http.StatusInternalServerError, http.StatusOK]

theorem downloadHandler_status_401_iff (uploadDir : String) (now : Time) (s : World)
    (r : http.Request) (hm : r.Method = "GET") :
    ((downloadHandler uploadDir now s r).response.status = 401 ↔
        (requestToken r = "" ∨
          (s.tokenManager.ValidateToken (requestToken r) now).1 = false)) ∧
      ((downloadHandler uploadDir now s r).response.status = 401 →
        (downloadHandler uploadDir now s r).parsedForm = false ∧
          (downloadHandler uploadDir now s r).world.fs = s.fs) := by
  have hm2 : ¬ r.Method ≠ http.MethodGet := by simp [hm, http.MethodGet]
  unfold downloadHandler
  simp only [if_neg hm2]
  by_cases ht : requestToken r = ""
  · simp [ht, http.Error, http.StatusUnauthorized]
  · simp only [if_neg ht]
    cases hv : (s.tokenManager.ValidateToken (requestToken r) now).1 with
    | false => simp [ht, http.Error, http.StatusUnauthorized]
    | true =>
      simp only [Bool.not_true, Bool.false_eq_true, if_false]
      split
      · simp [ht, http.Error, http.StatusBadRequest]
      · split
        · simp [ht, http.Error, http.StatusNotFound]
        · split
          · simp [ht, http.Error, http.StatusInternalServerError]
          · split <;> simp [ht, http.Response.fresh, http.StatusOK]

/-- C5: for a POST request to `uploadHandler` and for a GET request to `downloadHandler`,
let the effective token `tok` be the value of the `Authorization` header when that is
not empty, and the value of the `token` query parameter otherwise.  The response status
is 401 if and only if `tok` is empty or `ValidateToken` rejects it; and in that case the
request body is not parsed and the filesystem is as it was. -/
theorem unauthorized_iff (uploadDir : String) (now : Time) (s : World) (r : http.Request)
    (tok : String)
    (htok : tok =
      if http.Header.Get r.Header "Authorization" = "" then http.Header.Get r.Query "token"
      else http.Header.Get r.Header "Authorization") :
    (r.Method = "POST" →
        ((uploadHandler uploadDir now s r).response.status = 401 ↔
          (tok = "" ∨ (s.tokenManager.ValidateToken tok now).1 = false)) ∧
        ((uploadHandler uploadDir now s r).response.status = 401 →
          (uploadHandler uploadDir now s r).parsedForm = false ∧
            (uploadHandler uploadDir now s r).world.fs = s.fs)) ∧
      (r.Method = "GET" →
        ((downloadHandler uploadDir now s r).response.status = 401 ↔
          (tok = "" ∨ (s.tokenManager.ValidateToken tok now).1 = false)) ∧
        ((downloadHandler uploadDir now s r).response.status = 401 →
          (downloadHandler uploadDir now s r).parsedForm = false ∧
            (downloadHandler uploadDir now s r).world.fs = s.fs)) := by
  have hreq : requestToken r = tok := by
    rw [htok]
    rfl
  constructor
  · intro hm
    have h := uploadHandler_status_401_iff uploadDir now s r hm
    rw [hreq] at h
    exact h
  · intro hm
    have h := downloadHandler_status_401_iff uploadDir now s r hm
    rw [hreq] at h
    exact h

/-- C5 at concrete requests.  The header decides when it is not empty: a POST with a
valid token in the header and an unknown one in the query is not answered 401, a GET
with an unknown token in the header and a valid one in the query is answered 401
without a change of the filesystem.  The query decides when the header is empty: a
POST with an expired token in the query and a GET with an empty token are answered
401, and the POST neither parses the body nor writes a file. -/
theorem unauthorized_iff_witness :
    (uploadHandler "uploads" 5 worldT (uploadRequestWith "T" "bad")).response.status ≠ 401 ∧
      ((downloadHandler "uploads" 5 worldT (downloadRequestWith "bad" "T")).response.status
          = 401 ∧
        (downloadHandler "uploads" 5 worldT (downloadRequestWith "bad" "T")).world.fs
          = worldT.fs) ∧
      ((uploadHandler "uploads" 3600000000001 worldT
          (uploadRequest "hello.txt" [104, 105])).response.status = 401 ∧
        (uploadHandler "uploads" 3600000000001 worldT
          (uploadRequest "hello.txt" [104, 105])).parsedForm = false ∧
        (uploadHandler "uploads" 3600000000001 worldT
          (uploadRequest "hello.txt" [104, 105])).world.fs = worldT.fs) ∧
      (downloadHandler "uploads" 5 worldT
        (downloadRequest "/download/hello.txt" "")).response.status = 401 :=
  ⟨fun h => absurd
      (((unauthorized_iff "uploads" 5 worldT (uploadRequestWith "T" "bad") "T" (by decide)).1
        rfl).1.1 h) (by decide),
    ⟨((unauthorized_iff "uploads" 5 worldT (downloadRequestWith "bad" "T") "bad"
        (by decide)).2 rfl).1.2 (Or.inr (by decide)),
      (((unauthorized_iff "uploads" 5 worldT (downloadRequestWith "bad" "T") "bad"
        (by decide)).2 rfl).2
        (((unauthorized_iff "uploads" 5 worldT (downloadRequestWith "bad" "T") "bad"
          (by decide)).2 rfl).1.2 (Or.inr (by decide)))).2⟩,
    ⟨((unauthorized_iff "uploads" 3600000000001 worldT
        (uploadRequest "hello.txt" [104, 105]) "T" (by decide)).1 rfl).1.2
        (Or.inr (by decide)),
      ((unauthorized_iff "uploads" 3600000000001 worldT
        (uploadRequest "hello.txt" [104, 105]) "T" (by decide)).1 rfl).2
        (((unauthorized_iff "uploads" 3600000000001 worldT
          (uploadRequest "hello.txt" [104, 105]) "T" (by decide)).1 rfl).1.2
          (Or.inr (by decide)))⟩,
    ((unauthorized_iff "uploads" 5 worldT
        (downloadRequest "/download/hello.txt" "") "" (by decide)).2 rfl).1.2
      (Or.inl rfl)⟩

theorem os.walkDirs_put (fs : FileSystem) (key : String) (n : Node) (l : List String)
    (h : key ∉ l) : os.walkDirs (fs.put key n) l = os.walkDirs fs l := by
  induction l with
  | nil => rfl
  | cons p ps ih =>
    have hp : ¬ p = key := fun e => h (by rw [e]; exact List.mem_cons_self _ _)
    have hps : key ∉ ps := fun m => h (List.mem_cons_of_mem _ m)
    have hn : (fs.put key n).nodes p = fs.nodes p := by
      simp [FileSystem.put, hp]
    simp only [os.walkDirs, hn, ih hps]

theorem os.not_mem_properAncestors (path : String) :
    filepath.Clean path ∉ os.properAncestors path := by
  intro h
  have := (List.mem_filter.1 h).2
  simp at this

/-- A file that was created and written resolves to its content. -/
theorem os.lookup_after_create (fs fs2 : FileSystem) (path : String) (content : Bytes)
    (h : os.Create fs path = some fs2) :
    os.lookup (os.writeAll fs2 path content) path = os.Lookup.found (Node.file content) := by
  unfold os.Create at h
  split at h
  · cases h
  · rename_i hguard
    have hne : ¬ path = "" := fun e => hguard (Or.inl e)
    have hlen : ¬ os.PathMax ≤ path.utf8ByteSize := fun e => hguard (Or.inr e)
    split at h
    · cases h
    · rename_i hwalk
      split at h
      · cases h
      · rename_i hname
        have hfs2 : fs2 = fs.put (filepath.Clean path) (Node.file []) := by
          split at h
          · cases h
          · cases h
            rfl
        have hw : os.walkDirs (os.writeAll fs2 path content) (os.properAncestors path)
            = none := by
          unfold os.writeAll
          rw [os.walkDirs_put _ _ _ _ (os.not_mem_properAncestors path), hfs2,
            os.walkDirs_put _ _ _ _ (os.not_mem_properAncestors path)]
          exact hwalk
        unfold os.lookup
        simp only [if_neg hne, if_neg hlen, hw, hname]
        simp [os.writeAll, FileSystem.put]

theorem http.Header.Get_Set (h : http.Header) (key value : String) :
    http.Header.Get (http.Header.Set h key value) key = value := by
  simp [http.Header.Get, http.Header.Set]

/-- What `uploadHandler` does with an authorised POST whose form has the file and whose
destination can be created. -/
theorem uploadHandler_ok (uploadDir : String) (now : Time) (s : World) (r : http.Request)
    (N : String) (B : Bytes) (fs2 : FileSystem)
    (hm : r.Method = "POST") (hf : r.Form = http.Form.file N B)
    (ht : requestToken r ≠ "")
    (hv : (s.tokenManager.ValidateToken (requestToken r) now).1 = true)
    (hc : os.Create (ensureUploadDir s.fs uploadDir)
      (filepath.Join uploadDir (filepath.Base N)) = some fs2) :
    uploadHandler uploadDir now s r =
      ⟨⟨200, [], http.Body.text ("File uploaded successfully: " ++ filepath.Base N ++ "\n")⟩,
        ⟨s.tokenManager,
          os.writeAll fs2 (filepath.Join uploadDir (filepath.Base N)) B⟩, true⟩ := by
  have hm2 : ¬ r.Method ≠ http.MethodPost := by simp [hm, http.MethodPost]
  have hk := ValidateToken_true_keeps s.tokenManager (requestToken r) now hv
  unfold uploadHandler
  simp only [if_neg hm2, if_neg ht, hv, hf, hc, hk]
  simp [http.StatusOK, http.Response.fresh]

/-- What `downloadHandler` does with an authorised GET of `/download/N` when the path it
resolves names a regular file. -/
theorem downloadHandler_file (uploadDir : String) (now : Time) (s : World) (r : http.Request)
    (N : String) (B : Bytes)
    (hm : r.Method = "GET") (hp : r.Path = "/download/" ++ N) (hN : '/' ∉ N.data)
    (ht : requestToken r ≠ "")
    (hv : (s.tokenManager.ValidateToken (requestToken r) now).1 = true)
    (hfile : os.lookup s.fs (filepath.Join uploadDir (filepath.Base N)) =
      os.Lookup.found (Node.file B)) :
    (downloadHandler uploadDir now s r).response =
      ⟨200, http.Header.Set (transferHeaders [] (filepath.Base N)) "Content-Length"
        (toString B.length), http.Body.bytes B⟩ := by
  have hm2 : ¬ r.Method ≠ http.MethodGet := by simp [hm, http.MethodGet]
  unfold downloadHandler
  simp only [if_neg hm2, if_neg ht, hv, hp, strings.Split_download N hN]
  simp [os.Stat, os.Open, hfile, os.IsNotExist, os.Size, os.readAll, http.StatusOK,
    http.Response.fresh]

/-- When `os.Stat` reports that the resolved path does not exist, an authorised GET is
answered 404 with the body `File not found`, none of the file-transfer headers is set,
and the filesystem is as it was. -/
theorem download_missing (uploadDir : String) (now : Time) (s : World) (r : http.Request)
    (name : String)
    (hm : r.Method = "GET") (ht : requestToken r ≠ "")
    (hv : (s.tokenManager.ValidateToken (requestToken r) now).1 = true)
    (hname : (strings.Split r.Path '/').get? 2 = some name)
    (hmissing : os.Stat s.fs (filepath.Join uploadDir (filepath.Base name)) =
      os.Lookup.failed Errno.ENOENT) :
    (downloadHandler uploadDir now s r).response.status = 404 ∧
      (downloadHandler uploadDir now s r).response.body = http.Body.text "File not found\n" ∧
      (∀ key ∈ ["Content-Description", "Content-Disposition", "Content-Length", "Expires",
          "Cache-Control", "Pragma"],
        http.Header.Has (downloadHandler uploadDir now s r).response.Header key = false) ∧
      http.Header.Get (downloadHandler uploadDir now s r).response.Header "Content-Type" =
        "text/plain; charset=utf-8" ∧
      (downloadHandler uploadDir now s r).world.fs = s.fs := by
  have hm2 : ¬ r.Method ≠ http.MethodGet := by simp [hm, http.MethodGet]
  have hlen : ¬ (strings.Split r.Path '/').length < 3 := by
    have := List.get?_eq_some.1 hname
    obtain ⟨h, _⟩ := this
    omega
  have hget : (strings.Split r.Path '/').getD 2 "" = name := by
    rw [List.getD_eq_getElem?_getD]
    have : (strings.Split r.Path '/')[2]? = some name := by
      rw [← List.get?_eq_getElem?]
      exact hname
    rw [this]
    rfl
  unfold downloadHandler
  simp only [if_neg hm2, if_neg ht, hv, if_neg hlen, hget, hmissing, os.IsNotExist]
  simp only [Bool.not_true, Bool.false_eq_true, if_false, if_true]
  refine ⟨rfl, ?_, ?_, ?_, trivial⟩
  · decide
  · decide
  · decide

/-- The lemma `download_missing` at a concrete request: `GET /download/missing.txt` on a
filesystem without any file. -/
theorem download_missing_witness :
    (downloadHandler "uploads" 6 worldT
        (downloadRequest "/download/missing.txt" "T")).response.status = 404 ∧
      (downloadHandler "uploads" 6 worldT
        (downloadRequest "/download/missing.txt" "T")).response.body =
        http.Body.text "File not found\n" ∧
      http.Header.Has (downloadHandler "uploads" 6 worldT
        (downloadRequest "/download/missing.txt" "T")).response.Header
        "Content-Disposition" = false :=
  ⟨(download_missing "uploads" 6 worldT (downloadRequest "/download/missing.txt" "T")
      "missing.txt" rfl (by decide) (by decide) (by decide) (by decide)).1,
    (download_missing "uploads" 6 worldT (downloadRequest "/download/missing.txt" "T")
      "missing.txt" rfl (by decide) (by decide) (by decide) (by decide)).2.1,
    (download_missing "uploads" 6 worldT (downloadRequest "/download/missing.txt" "T")
      "missing.txt" rfl (by decide) (by decide) (by decide) (by decide)).2.2.1
      "Content-Disposition" (by decide)⟩

/-- A path that `os.Stat` cannot resolve for another reason than absence passes the
existence check: below a regular file, and with a name of 256 bytes, the handler sets
the file-transfer headers and then answers 500 when `os.Open` fails. -/
theorem download_unresolvable_is_500 :
    os.Stat worldUploadsFile.fs (filepath.Join "uploads" (filepath.Base "x")) =
        os.Lookup.failed Errno.ENOTDIR ∧
      (downloadHandler "uploads" 6 worldUploadsFile
        (downloadRequest "/download/x" "T")).response.status = 500 ∧
      http.Header.Has (downloadHandler "uploads" 6 worldUploadsFile
        (downloadRequest "/download/x" "T")).response.Header "Content-Disposition" = true ∧
      (downloadHandler "uploads" 6
        (uploadHandler "uploads" 5 worldT (uploadRequest "hello.txt" [104, 105])).world
        (downloadRequest ("/download/" ++ String.mk (List.replicate 256 'a'))
          "T")).response.status = 500 := by
  set_option maxRecDepth 200000 in decide

/-! ## Transfer handlers: the claims -/

/-- C6, as the code has it: for every content `B` and every declared filename `N`
without a path separator, when the token is valid at both request times and the
destination file can be created, `uploadHandler` answers the POST with 200 and
`downloadHandler` then answers `GET /download/N` with 200, a body equal to `B` and a
`Content-Length` header equal to the length of `B`. -/
theorem upload_then_download (uploadDir : String) (now1 now2 : Time) (s : World)
    (r1 r2 : http.Request) (N : String) (B : Bytes)
    (hm1 : r1.Method = "POST") (hf : r1.Form = http.Form.file N B)
    (ht1 : requestToken r1 ≠ "")
    (hv1 : (s.tokenManager.ValidateToken (requestToken r1) now1).1 = true)
    (hN : '/' ∉ N.data)
    (hcreate : (os.Create (ensureUploadDir s.fs uploadDir)
      (filepath.Join uploadDir (filepath.Base N))).isSome = true)
    (hm2 : r2.Method = "GET") (hp : r2.Path = "/download/" ++ N)
    (ht2 : requestToken r2 ≠ "")
    (hv2 : ((uploadHandler uploadDir now1 s r1).world.tokenManager.ValidateToken
      (requestToken r2) now2).1 = true) :
    (uploadHandler uploadDir now1 s r1).response.status = 200 ∧
      (downloadHandler uploadDir now2 (uploadHandler uploadDir now1 s r1).world
        r2).response.status = 200 ∧
      (downloadHandler uploadDir now2 (uploadHandler uploadDir now1 s r1).world
        r2).response.body = http.Body.bytes B ∧
      http.Header.Get (downloadHandler uploadDir now2 (uploadHandler uploadDir now1 s r1).world
        r2).response.Header "Content-Length" = toString B.length := by
  obtain ⟨fs2, hc⟩ := Option.isSome_iff_exists.1 hcreate
  have hup := uploadHandler_ok uploadDir now1 s r1 N B fs2 hm1 hf ht1 hv1 hc
  rw [hup] at hv2 ⊢
  have hfile := os.lookup_after_create _ fs2 (filepath.Join uploadDir (filepath.Base N)) B hc
  have hdown := downloadHandler_file uploadDir now2
    ⟨s.tokenManager, os.writeAll fs2 (filepath.Join uploadDir (filepath.Base N)) B⟩ r2 N B
    hm2 hp hN ht2 hv2 hfile
  rw [hdown]
  exact ⟨rfl, rfl, rfl, http.Header.Get_Set _ _ _⟩

/-- C6 at a concrete run: `hi` uploaded as `hello.txt` at the time `5` and downloaded at
the time `6`. -/
theorem upload_then_download_witness :
    (uploadHandler "uploads" 5 worldT (uploadRequest "hello.txt" [104, 105])).response.status
        = 200 ∧
      (downloadHandler "uploads" 6
        (uploadHandler "uploads" 5 worldT (uploadRequest "hello.txt" [104, 105])).world
        (downloadRequest "/download/hello.txt" "T")).response.status = 200 ∧
      (downloadHandler "uploads" 6
        (uploadHandler "uploads" 5 worldT (uploadRequest "hello.txt" [104, 105])).world
        (downloadRequest "/download/hello.txt" "T")).response.body =
        http.Body.bytes [104, 105] ∧
      http.Header.Get (downloadHandler "uploads" 6
        (uploadHandler "uploads" 5 worldT (uploadRequest "hello.txt" [104, 105])).world
        (downloadRequest "/download/hello.txt" "T")).response.Header "Content-Length" =
        toString [104, 105].length :=
  upload_then_download "uploads" 5 6 worldT (uploadRequest "hello.txt" [104, 105])
    (downloadRequest "/download/hello.txt" "T") "hello.txt" [104, 105]
    rfl rfl (by decide) (by decide) (by decide) (by decide) rfl (by decide) (by decide)
    (by decide)

/-- C6 fails as stated: with the declared filename `a/b` the upload is answered with 200
and stores the content under `uploads/b`, and `GET /download/a/b` with the same valid
token is answered with 404, since the handler looks for `uploads/a`. -/
theorem upload_then_download_nested_name :
    (uploadHandler "uploads" 5 worldT (uploadRequest "a/b" [104, 105])).response.status = 200 ∧
      (uploadHandler "uploads" 5 worldT (uploadRequest "a/b" [104, 105])).world.fs.resolve
        "uploads/b" = some (Node.file [104, 105]) ∧
      (worldT.tokenManager.ValidateToken "T" 5).1 = true ∧
      ((uploadHandler "uploads" 5 worldT
        (uploadRequest "a/b" [104, 105])).world.tokenManager.ValidateToken "T" 6).1 = true ∧
      (downloadHandler "uploads" 6
        (uploadHandler "uploads" 5 worldT (uploadRequest "a/b" [104, 105])).world
        (downloadRequest "/download/a/b" "T")).response.status = 404 := by
  decide

/-- C7 fails on the code: once an upload has created the upload directory, the request
`GET /download/` with a valid token has the empty filename, which is sanitized to `.`
and names no file stored in the upload directory (the resolved path is the upload
directory itself); the existence check lets the directory pass, and the handler does
not answer 404: it sets the file-transfer headers, sends no bytes, and the status stays
200. -/
theorem download_empty_name_not_404 :
    (strings.Split "/download/" '/').get? 2 = some "" ∧
      filepath.Base "" = "." ∧
      filepath.Join "uploads" (filepath.Base "") = "uploads" ∧
      (uploadHandler "uploads" 5 worldT (uploadRequest "hello.txt" [104, 105])).world.fs.isFile
        (filepath.Join "uploads" (filepath.Base "")) = false ∧
      ((uploadHandler "uploads" 5 worldT
        (uploadRequest "hello.txt" [104, 105])).world.tokenManager.ValidateToken "T" 6).1
        = true ∧
      (downloadHandler "uploads" 6
        (uploadHandler "uploads" 5 worldT (uploadRequest "hello.txt" [104, 105])).world
        (downloadRequest "/download/" "T")).response.status = 200 ∧
      http.Header.Get (downloadHandler "uploads" 6
        (uploadHandler "uploads" 5 worldT (uploadRequest "hello.txt" [104, 105])).world
        (downloadRequest "/download/" "T")).response.Header "Content-Disposition" =
        "attachment; filename=." ∧
      http.Header.Has (downloadHandler "uploads" 6
        (uploadHandler "uploads" 5 worldT (uploadRequest "hello.txt" [104, 105])).world
        (downloadRequest "/download/" "T")).response.Header "Content-Length" = true ∧
      (downloadHandler "uploads" 6
        (uploadHandler "uploads" 5 worldT (uploadRequest "hello.txt" [104, 105])).world
        (downloadRequest "/download/" "T")).response.body = http.Body.bytes [] := by
  decide


end FileServer
